import Mathlib

/-
  Verification of the MapSegment state engine
  (src/soya/src/data/redux/segment/map/MapSegment.js).

  JavaScript objects are modelled with explicit references: a segment state
  object is an identifier (Nat) bound in a heap to its entry list, so that
  reference equality, fresh allocation and in-place mutation of objects are
  all expressible. A Piece carries a `ref` field modelling its own object
  identity alongside its data, updated, errors and loaded fields.
-/

namespace Soya

/-- A Piece: the cached value for one query identity. `ref` models the
JavaScript object identity of the piece; `data`, `updated`, `errors` and
`loaded` are the fields built by the event creators. -/
structure Piece where
  ref : Nat
  data : Option Int
  updated : Nat
  errors : Option (List Int)
  loaded : Bool
deriving DecidableEq

/-- An event: `{type, queryId, payload}`. The clean event carries no
queryId/payload in the source; the reducer never reads them on that branch,
so modelling them as always-present fields is behaviour-preserving. -/
structure Action where
  type : String
  queryId : String
  payload : Piece
deriving DecidableEq

/-- A segment state object's own enumerable entries, in insertion order. -/
abbrev StateMap := List (String × Piece)

/-- JavaScript property read `m[q]`: `none` models `undefined`. -/
def getEntry : StateMap → String → Option Piece
  | [], _ => none
  | (k, v) :: rest, q => if k = q then some v else getEntry rest q

/-- JavaScript property write `m[q] = p`: overwrite in place when the key
exists (keeping its position), append otherwise. -/
def setEntry : StateMap → String → Piece → StateMap
  | [], q, p => [(q, p)]
  | (k, v) :: rest, q, p => if k = q then (k, p) :: rest else (k, v) :: setEntry rest q p

/-- The `for (queryId in state) newState[queryId] = state[queryId]` copy loop
of `_createNewStateObj`, run on a fresh empty object. -/
def copyEntries (m : StateMap) : StateMap :=
  m.foldl (fun acc kv => setEntry acc kv.1 kv.2) []

/-- Association lookup over heap bindings. -/
def lookupObj : List (Nat × StateMap) → Nat → Option StateMap
  | [], _ => none
  | (i, m) :: rest, r => if i = r then some m else lookupObj rest r

/-- The heap of live state objects: object identifier to entry list. -/
structure Heap where
  objs : List (Nat × StateMap)
deriving DecidableEq

/-- Dereference a state object. `none` models a dangling identifier. -/
def Heap.get (h : Heap) (r : Nat) : Option StateMap :=
  lookupObj h.objs r

/-- Dereference, defaulting a dangling identifier to an empty object. -/
def Heap.getD (h : Heap) (r : Nat) : StateMap :=
  (h.get r).getD []

/-- The identifiers bound in the heap. -/
def Heap.ids (h : Heap) : List Nat :=
  h.objs.map Prod.fst

/-- A fresh identifier: strictly above every bound identifier. -/
def Heap.fresh (h : Heap) : Nat :=
  h.ids.foldr (fun a b => max a b) 0 + 1

/-- Allocate a new object (`{}` then filling it): returns the extended heap
and the new object's identifier. -/
def Heap.alloc (h : Heap) (m : StateMap) : Heap × Nat :=
  (⟨(h.fresh, m) :: h.objs⟩, h.fresh)

/-- In-place mutation of the object bound to `r`. -/
def Heap.set (h : Heap) (r : Nat) (m : StateMap) : Heap :=
  ⟨h.objs.map (fun im => if im.1 = r then (r, m) else im)⟩

/-- `_createNewStateObj(state)`: allocate a fresh object holding a copy of
every own enumerable entry of `state`. -/
def createNewStateObj (h : Heap) (st : Nat) : Heap × Nat :=
  h.alloc (copyEntries (h.getD st))

/-- The shared write sequence of the LOAD and INIT branches:
`newState = this._createNewStateObj(state); newState[action.queryId] =
action.payload; return newState`. -/
def writeEntry (h : Heap) (st : Nat) (q : String) (p : Piece) : Heap × Nat :=
  let hn := createNewStateObj h st
  ((hn.1).set hn.2 (setEntry ((hn.1).getD hn.2) q p), hn.2)

/-- The reducer returned by `_getReducer`, closed over the three action type
names. `stOpt = none` models an `undefined` incoming state, replaced by a
fresh `{}` before the switch. Returns the heap after the call and the
identifier of the returned state object. -/
def reduce (loadActionType initActionType cleanActionType : String)
    (h0 : Heap) (stOpt : Option Nat) (a : Action) : Heap × Nat :=
  let hst : Heap × Nat :=
    match stOpt with
    | none => h0.alloc []
    | some r => (h0, r)
  if a.type = cleanActionType then
    (hst.1).alloc []
  else if a.type = loadActionType then
    writeEntry hst.1 hst.2 a.queryId a.payload
  else if a.type = initActionType then
    let isUninitialized : Bool :=
      match getEntry ((hst.1).getD hst.2) a.queryId with
      | none => true
      | some p => !p.loaded
    if isUninitialized then
      writeEntry hst.1 hst.2 a.queryId a.payload
    else
      hst
  else
    hst

/-- `_isStateEqual`: JavaScript reference equality on state objects. -/
def isStateEqual (a b : Nat) : Bool :=
  a == b

/-- `_getPieceObject(state, queryId)`: `state[queryId]`. -/
def getPieceObject (m : StateMap) (queryId : String) : Option Piece :=
  getEntry m queryId

/-- JavaScript strict equality on possibly-undefined piece values:
`undefined === undefined` is true, object comparison is by reference. -/
def jsEq : Option Piece → Option Piece → Bool
  | none, none => true
  | some p, some q => p.ref == q.ref
  | _, _ => false

/-- `_comparePiece(prevSegmentState, segmentState, queryId)`, over heap
references to the two states. -/
def comparePiece (h : Heap) (prev next : Nat) (queryId : String) :
    Option (List (Option Piece)) :=
  if isStateEqual prev next then
    none
  else if jsEq (getEntry (h.getD prev) queryId) (getEntry (h.getD next) queryId) then
    none
  else
    some [getPieceObject (h.getD next) queryId]

/-- `_createSyncLoadActionObject(queryId, payload, errors)`: a LOAD event
with a fresh piece whose `loaded` is `errors ? false : true` (an array,
even empty, is truthy; absent errors are falsy). `now` is the timestamp and
`pieceRef` is the fresh object identity of the piece literal. -/
def createSyncLoadActionObject (loadActionType queryId : String)
    (payload : Option Int) (errors : Option (List Int)) (now pieceRef : Nat) : Action :=
  ⟨loadActionType, queryId,
    ⟨pieceRef, payload, now, errors, if errors.isSome then false else true⟩⟩

/-- `_createSyncInitAction(queryId)`: an INIT event with a fresh
uninitialized piece. -/
def createSyncInitAction (initActionType queryId : String)
    (now pieceRef : Nat) : Action :=
  ⟨initActionType, queryId, ⟨pieceRef, none, now, none, false⟩⟩

/-- A deferred fetch handler binding, per `Thunk(segmentId, queryId, query)`. -/
structure Thunk where
  segmentId : String
  queryId : String
  query : Int
deriving DecidableEq

/-- `_generateQueryId`: the abstract base implementation throws
unconditionally; a raised error is modelled as `Except.error` carrying the
message. `inst` stands for the stringified instance appended to it. -/
def generateQueryId (inst : String) (query : Int) : Except String String :=
  Except.error ("User must override this _generateQueryId method! Instance: " ++ inst ++ ".")

/-- `_generateThunkFunction`: the abstract base implementation throws
unconditionally. -/
def generateThunkFunction (inst : String) (thunk : Thunk) : Except String Unit :=
  Except.error ("User must override _generateThunkFunction method! Instance: " ++ inst ++ ".")

/-- Reading back the key just written returns the written piece. -/
theorem getEntry_setEntry_self (m : StateMap) (q : String) (p : Piece) :
    getEntry (setEntry m q p) q = some p := by
  induction m with
  | nil => simp [setEntry, getEntry]
  | cons kv rest ih =>
    obtain ⟨k, v⟩ := kv
    by_cases hk : k = q
    · subst hk
      simp [setEntry, getEntry]
    · simp [setEntry, getEntry, hk, ih]

/-- Writing one key leaves every other key's value unchanged. -/
theorem getEntry_setEntry_ne (m : StateMap) (q k : String) (p : Piece)
    (hk : k ≠ q) : getEntry (setEntry m q p) k = getEntry m k := by
  induction m with
  | nil => simp [setEntry, getEntry, Ne.symm hk]
  | cons kv rest ih =>
    obtain ⟨k0, v⟩ := kv
    by_cases h0 : k0 = q
    · subst h0
      simp [setEntry, getEntry, Ne.symm hk]
    · by_cases h1 : k0 = k
      · subst h1
        simp [setEntry, getEntry, h0]
      · simp [setEntry, getEntry, h0, h1, ih]

/-- A key not among the entry keys reads as `undefined`. -/
theorem getEntry_eq_none_of_not_mem (m : StateMap) (k : String)
    (hk : k ∉ m.map Prod.fst) : getEntry m k = none := by
  induction m with
  | nil => rfl
  | cons kv rest ih =>
    rw [List.map_cons] at hk
    simp only [List.mem_cons, not_or] at hk
    obtain ⟨k0, v⟩ := kv
    simp only [getEntry]
    rw [if_neg (Ne.symm hk.1)]
    exact ih hk.2

/-- The copy loop over duplicate-free entries: a key found in the source
reads as in the source, any other key reads as in the accumulator. -/
theorem getEntry_foldl_setEntry (m : StateMap) (k : String) :
    ∀ acc : StateMap, (m.map Prod.fst).Nodup →
      getEntry (m.foldl (fun a kv => setEntry a kv.1 kv.2) acc) k =
        (match getEntry m k with
          | some p => some p
          | none => getEntry acc k) := by
  induction m with
  | nil =>
    intro acc _
    rfl
  | cons kv rest ih =>
    intro acc hnd
    obtain ⟨k0, p0⟩ := kv
    rw [List.map_cons, List.nodup_cons] at hnd
    rw [List.foldl_cons, ih _ hnd.2]
    by_cases hkk : k0 = k
    · subst hkk
      have hrest : getEntry rest k0 = none := getEntry_eq_none_of_not_mem _ _ hnd.1
      simp [getEntry, hrest, getEntry_setEntry_self]
    · have hacc : getEntry (setEntry acc k0 p0) k = getEntry acc k :=
        getEntry_setEntry_ne _ _ _ _ (Ne.symm hkk)
      cases hre : getEntry rest k <;> simp [getEntry, hkk, hre, hacc]

/-- `_createNewStateObj` copies every entry: reads agree with the source
object (whose keys, being a JavaScript object's, are duplicate-free). -/
theorem getEntry_copyEntries (m : StateMap) (k : String)
    (hnd : (m.map Prod.fst).Nodup) :
    getEntry (copyEntries m) k = getEntry m k := by
  have h := getEntry_foldl_setEntry m k [] hnd
  cases hme : getEntry m k <;> rw [hme] at h <;> simpa [copyEntries] using h

/-- Every member of a list of naturals is bounded by its max-fold. -/
theorem le_foldr_max (l : List Nat) (x : Nat) (hx : x ∈ l) :
    x ≤ l.foldr (fun a b => max a b) 0 := by
  induction l with
  | nil => cases hx
  | cons a rest ih =>
    rcases List.mem_cons.mp hx with h | h
    · subst h
      exact le_max_left _ _
    · exact le_trans (ih h) (le_max_right _ _)

/-- A fresh identifier is bound nowhere in the heap. -/
theorem fresh_not_mem (h : Heap) : h.fresh ∉ h.ids := by
  intro hmem
  have hle := le_foldr_max h.ids h.fresh hmem
  simp only [Heap.fresh] at hle
  omega

/-- Looking up an unbound identifier yields nothing. -/
theorem lookupObj_eq_none_of_not_mem (l : List (Nat × StateMap)) (r : Nat)
    (hr : r ∉ l.map Prod.fst) : lookupObj l r = none := by
  induction l with
  | nil => rfl
  | cons im rest ih =>
    rw [List.map_cons] at hr
    simp only [List.mem_cons, not_or] at hr
    simp only [lookupObj]
    rw [if_neg (Ne.symm hr.1)]
    exact ih hr.2

/-- Dereferencing the fresh identifier of a heap yields nothing. -/
theorem get_fresh_eq_none (h : Heap) : h.get h.fresh = none :=
  lookupObj_eq_none_of_not_mem _ _ (fresh_not_mem h)

/-- Mutating the object bound to `ns` leaves lookups of any other
identifier unchanged. -/
theorem lookupObj_set_ne (l : List (Nat × StateMap)) (ns r : Nat) (m : StateMap)
    (hne : r ≠ ns) :
    lookupObj (l.map (fun im => if im.1 = ns then (ns, m) else im)) r =
      lookupObj l r := by
  induction l with
  | nil => rfl
  | cons im rest ih =>
    rw [List.map_cons]
    by_cases hi : im.1 = ns
    · rw [if_pos hi]
      simp only [lookupObj]
      rw [if_neg (Ne.symm hne), if_neg (show ¬im.1 = r from fun hh => hne (by rw [← hh, hi]))]
      exact ih
    · rw [if_neg hi]
      simp only [lookupObj]
      rw [ih]

/-- The write sequence returns the freshly allocated object. -/
theorem writeEntry_snd (h : Heap) (st : Nat) (q : String) (p : Piece) :
    (writeEntry h st q p).2 = h.fresh := rfl

/-- After the write sequence, the new object holds the copied entries with
the query's entry overwritten by the payload. -/
theorem writeEntry_get_new (h : Heap) (st : Nat) (q : String) (p : Piece) :
    (writeEntry h st q p).1.get h.fresh =
      some (setEntry (copyEntries (h.getD st)) q p) := by
  have hgd : (⟨(h.fresh, copyEntries (h.getD st)) :: h.objs⟩ : Heap).getD h.fresh
      = copyEntries (h.getD st) := by
    simp [Heap.getD, Heap.get, lookupObj]
  show ((⟨(h.fresh, copyEntries (h.getD st)) :: h.objs⟩ : Heap).set h.fresh
      (setEntry ((⟨(h.fresh, copyEntries (h.getD st)) :: h.objs⟩ : Heap).getD h.fresh) q p)).get
        h.fresh = some (setEntry (copyEntries (h.getD st)) q p)
  rw [hgd]
  simp only [Heap.set, Heap.get, List.map_cons]
  simp [lookupObj]

/-- The write sequence leaves every previously bound object untouched. -/
theorem writeEntry_get_old (h : Heap) (st : Nat) (q : String) (p : Piece) (r : Nat)
    (hne : r ≠ h.fresh) :
    (writeEntry h st q p).1.get r = h.get r := by
  have hgd : (⟨(h.fresh, copyEntries (h.getD st)) :: h.objs⟩ : Heap).getD h.fresh
      = copyEntries (h.getD st) := by
    simp [Heap.getD, Heap.get, lookupObj]
  show ((⟨(h.fresh, copyEntries (h.getD st)) :: h.objs⟩ : Heap).set h.fresh
      (setEntry ((⟨(h.fresh, copyEntries (h.getD st)) :: h.objs⟩ : Heap).getD h.fresh) q p)).get
        r = h.get r
  rw [hgd]
  simp only [Heap.set, Heap.get, List.map_cons]
  simp only [Prod.fst, eq_self_iff_true, if_true]
  simp only [lookupObj]
  rw [if_neg (Ne.symm hne)]
  exact lookupObj_set_ne h.objs h.fresh r _ hne

/-- CLEAN branch: the reducer returns a fresh empty object. -/
theorem reduce_clean_eq (lt it ct : String) (h : Heap) (r : Nat) (a : Action)
    (hc : a.type = ct) :
    reduce lt it ct h (some r) a = h.alloc [] := by
  simp [reduce, hc]

/-- LOAD branch: the reducer performs the copy-then-overwrite write. -/
theorem reduce_load_eq (lt it ct : String) (h : Heap) (r : Nat) (a : Action)
    (hl : a.type = lt) (hc : a.type ≠ ct) :
    reduce lt it ct h (some r) a = writeEntry h r a.queryId a.payload := by
  rw [hl] at hc
  simp [reduce, hl, hc]

/-- INIT branch on an uninitialized entry (missing or not loaded): the
reducer performs the copy-then-overwrite write. -/
theorem reduce_init_write_eq (lt it ct : String) (h : Heap) (r : Nat) (a : Action)
    (hi : a.type = it) (hc : a.type ≠ ct) (hl : a.type ≠ lt)
    (hun : getEntry (h.getD r) a.queryId = none ∨
      ∃ p, getEntry (h.getD r) a.queryId = some p ∧ p.loaded = false) :
    reduce lt it ct h (some r) a = writeEntry h r a.queryId a.payload := by
  rw [hi] at hc hl
  rcases hun with hnone | ⟨p, hp, hpl⟩
  · simp [reduce, hi, hc, hl, hnone]
  · simp [reduce, hi, hc, hl, hp, hpl]

/-- INIT branch on an already loaded entry: the reducer is a no-op. -/
theorem reduce_init_noop_eq (lt it ct : String) (h : Heap) (r : Nat) (a : Action)
    (p : Piece) (hi : a.type = it) (hc : a.type ≠ ct) (hl : a.type ≠ lt)
    (hp : getEntry (h.getD r) a.queryId = some p) (hpl : p.loaded = true) :
    reduce lt it ct h (some r) a = (h, r) := by
  rw [hi] at hc hl
  simp [reduce, hi, hc, hl, hp, hpl]

/-- Unrecognized action type: the reducer passes the state through. -/
theorem reduce_other_eq (lt it ct : String) (h : Heap) (r : Nat) (a : Action)
    (hc : a.type ≠ ct) (hl : a.type ≠ lt) (hi : a.type ≠ it) :
    reduce lt it ct h (some r) a = (h, r) := by
  simp [reduce, hc, hl, hi]

/-- The object returned by the write sequence, dereferenced with the
empty-object default, holds the copied entries with the overwrite. -/
theorem writeEntry_getD_new (h : Heap) (st : Nat) (q : String) (p : Piece) :
    (writeEntry h st q p).1.getD (writeEntry h st q p).2 =
      setEntry (copyEntries (h.getD st)) q p := by
  show ((writeEntry h st q p).1.get (writeEntry h st q p).2).getD [] = _
  rw [writeEntry_snd, writeEntry_get_new]
  rfl

/-- C2: change-detector soundness. If `_comparePiece(s1, s2, q)` is
non-null then `s1[q]` and `s2[q]` are not reference-equal and the result is
the one-element sequence `[s2[q]]`; if it is null then either the two
states are reference-equal or the two pieces are. -/
theorem comparePiece_sound (h : Heap) (r1 r2 : Nat) (q : String) :
    (∀ res, comparePiece h r1 r2 q = some res →
      jsEq (getEntry (h.getD r1) q) (getEntry (h.getD r2) q) = false ∧
      res = [getPieceObject (h.getD r2) q]) ∧
    (comparePiece h r1 r2 q = none →
      isStateEqual r1 r2 = true ∨
      jsEq (getEntry (h.getD r1) q) (getEntry (h.getD r2) q) = true) := by
  constructor
  · intro res hres
    unfold comparePiece at hres
    by_cases h12 : isStateEqual r1 r2 = true
    · rw [if_pos h12] at hres
      exact Option.noConfusion hres
    · rw [if_neg h12] at hres
      by_cases hj : jsEq (getEntry (h.getD r1) q) (getEntry (h.getD r2) q) = true
      · rw [if_pos hj] at hres
        exact Option.noConfusion hres
      · rw [if_neg hj] at hres
        refine ⟨by simpa using hj, ?_⟩
        injection hres with he
        exact he.symm
  · intro hnone
    unfold comparePiece at hnone
    by_cases h12 : isStateEqual r1 r2 = true
    · exact Or.inl h12
    · rw [if_neg h12] at hnone
      by_cases hj : jsEq (getEntry (h.getD r1) q) (getEntry (h.getD r2) q) = true
      · exact Or.inr hj
      · rw [if_neg hj] at hnone
        exact Option.noConfusion hnone

/-- C3: INIT on an already loaded entry returns the very same state
reference, with the heap untouched. -/
theorem init_noop_on_loaded (lt it ct : String) (h : Heap) (r : Nat) (a : Action)
    (p : Piece) (hat : a.type = it) (hac : a.type ≠ ct) (hal : a.type ≠ lt)
    (hp : getEntry (h.getD r) a.queryId = some p) (hl : p.loaded = true) :
    reduce lt it ct h (some r) a = (h, r) :=
  reduce_init_noop_eq lt it ct h r a p hat hac hal hp hl

/-- Witness for C3 at a concrete loaded state. -/
theorem init_noop_on_loaded_witness :
    reduce "L" "I" "C" ⟨[(0, [("q", ⟨1, some 5, 0, none, true⟩)])]⟩ (some 0)
        (⟨"I", "q", ⟨2, none, 1, none, false⟩⟩ : Action)
      = (⟨[(0, [("q", ⟨1, some 5, 0, none, true⟩)])]⟩, 0) :=
  init_noop_on_loaded "L" "I" "C" _ 0 _ ⟨1, some 5, 0, none, true⟩ (by decide) (by decide)
    (by decide) (by decide) (by decide)

/-- C6: the piece built by `_createSyncLoadActionObject` has `loaded` true
exactly when `errors` is absent, so it always satisfies the invariant that
a loaded piece carries no errors. -/
theorem syncLoad_loaded_iff_no_errors (lt qid : String) (payload : Option Int)
    (errors : Option (List Int)) (now pieceRef : Nat) :
    ((createSyncLoadActionObject lt qid payload errors now pieceRef).payload.loaded = true
      ↔ errors = none) ∧
    ((createSyncLoadActionObject lt qid payload errors now pieceRef).payload.loaded = true →
      (createSyncLoadActionObject lt qid payload errors now pieceRef).payload.errors = none) := by
  cases errors <;> simp [createSyncLoadActionObject]

/-- C7: the CLEAN event resets any state, defined or not, to a state whose
object holds no entries. -/
theorem clean_resets_to_empty (lt it ct : String) (h : Heap) (stOpt : Option Nat)
    (a : Action) (hat : a.type = ct) :
    (reduce lt it ct h stOpt a).1.get (reduce lt it ct h stOpt a).2 = some [] := by
  cases stOpt <;> simp [reduce, hat, Heap.alloc, Heap.get, lookupObj]

/-- Witness for C7 at a concrete non-empty state. -/
theorem clean_resets_to_empty_witness :
    (reduce "L" "I" "C" ⟨[(0, [("q", ⟨1, some 5, 0, none, true⟩)])]⟩ (some 0)
        (⟨"C", "", ⟨0, none, 0, none, false⟩⟩ : Action)).1.get
      (reduce "L" "I" "C" ⟨[(0, [("q", ⟨1, some 5, 0, none, true⟩)])]⟩ (some 0)
        (⟨"C", "", ⟨0, none, 0, none, false⟩⟩ : Action)).2 = some [] :=
  clean_resets_to_empty "L" "I" "C" ⟨[(0, [("q", ⟨1, some 5, 0, none, true⟩)])]⟩ (some 0)
    (⟨"C", "", ⟨0, none, 0, none, false⟩⟩ : Action) (by decide)

/-- C8: both abstract hooks of the base segment raise immediately for every
input when not overridden. -/
theorem abstract_hooks_raise (inst : String) (query : Int) (t : Thunk) :
    (∃ msg, generateQueryId inst query = Except.error msg) ∧
    (∃ msg, generateThunkFunction inst t = Except.error msg) :=
  ⟨⟨_, rfl⟩, ⟨_, rfl⟩⟩

/-- C9: an event whose type is none of the three action types leaves the
state reference and the heap unchanged. -/
theorem unknown_action_passthrough (lt it ct : String) (h : Heap) (r : Nat)
    (a : Action) (hc : a.type ≠ ct) (hl : a.type ≠ lt) (hi : a.type ≠ it) :
    reduce lt it ct h (some r) a = (h, r) :=
  reduce_other_eq lt it ct h r a hc hl hi

/-- Witness for C9 at a concrete foreign event type. -/
theorem unknown_action_passthrough_witness :
    reduce "L" "I" "C" ⟨[(0, [("q", ⟨1, some 5, 0, none, true⟩)])]⟩ (some 0)
        (⟨"X", "q", ⟨2, none, 0, none, false⟩⟩ : Action)
      = (⟨[(0, [("q", ⟨1, some 5, 0, none, true⟩)])]⟩, 0) :=
  unknown_action_passthrough "L" "I" "C" ⟨[(0, [("q", ⟨1, some 5, 0, none, true⟩)])]⟩ 0
    (⟨"X", "q", ⟨2, none, 0, none, false⟩⟩ : Action) (by decide) (by decide) (by decide)

/-- C10: a query identity absent from both states compares as unchanged,
even between two distinct state objects. -/
theorem comparePiece_null_when_absent (h : Heap) (r1 r2 : Nat) (q : String)
    (h1 : getEntry (h.getD r1) q = none) (h2 : getEntry (h.getD r2) q = none) :
    comparePiece h r1 r2 q = none := by
  simp [comparePiece, h1, h2, jsEq]

/-- Witness for C10: two distinct non-empty states, neither holding the
query. -/
theorem comparePiece_null_when_absent_witness :
    comparePiece ⟨[(0, [("a", ⟨2, some 1, 0, none, true⟩)]), (1, [])]⟩ 0 1 "q" = none :=
  comparePiece_null_when_absent ⟨[(0, [("a", ⟨2, some 1, 0, none, true⟩)]), (1, [])]⟩ 0 1 "q"
    (by decide) (by decide)

/-- C4: a LOAD event produces a new top-level state object (not the input
reference) whose entry at the event's query identity is the payload, while
every entry of the input at another key is present and shared by reference. -/
theorem load_overwrites_and_shares (lt it ct : String) (h : Heap) (r : Nat)
    (a : Action) (hat : a.type = lt) (hac : a.type ≠ ct)
    (hr : h.get r ≠ none) (hnd : ((h.getD r).map Prod.fst).Nodup) :
    (reduce lt it ct h (some r) a).2 ≠ r ∧
    getEntry ((reduce lt it ct h (some r) a).1.getD
      (reduce lt it ct h (some r) a).2) a.queryId = some a.payload ∧
    (∀ k p, k ≠ a.queryId → getEntry (h.getD r) k = some p →
      getEntry ((reduce lt it ct h (some r) a).1.getD
        (reduce lt it ct h (some r) a).2) k = some p) := by
  have hfr : r ≠ h.fresh := by
    intro e
    rw [e, get_fresh_eq_none] at hr
    exact hr rfl
  rw [reduce_load_eq lt it ct h r a hat hac]
  refine ⟨?_, ?_, ?_⟩
  · rw [writeEntry_snd]
    exact fun e => hfr e.symm
  · rw [writeEntry_getD_new]
    exact getEntry_setEntry_self _ _ _
  · intro k p hk hkp
    rw [writeEntry_getD_new, getEntry_setEntry_ne _ _ _ _ hk,
        getEntry_copyEntries _ _ hnd]
    exact hkp

/-- Witness for C4 at a concrete two-entry state. -/
theorem load_overwrites_and_shares_witness :
    (reduce "L" "I" "C"
        ⟨[(0, [("a", ⟨1, some 1, 0, none, true⟩), ("q", ⟨2, some 2, 0, none, true⟩)])]⟩
        (some 0) (⟨"L", "q", ⟨3, some 9, 1, none, true⟩⟩ : Action)).2 ≠ 0 ∧
    getEntry ((reduce "L" "I" "C"
        ⟨[(0, [("a", ⟨1, some 1, 0, none, true⟩), ("q", ⟨2, some 2, 0, none, true⟩)])]⟩
        (some 0) (⟨"L", "q", ⟨3, some 9, 1, none, true⟩⟩ : Action)).1.getD
      (reduce "L" "I" "C"
        ⟨[(0, [("a", ⟨1, some 1, 0, none, true⟩), ("q", ⟨2, some 2, 0, none, true⟩)])]⟩
        (some 0) (⟨"L", "q", ⟨3, some 9, 1, none, true⟩⟩ : Action)).2) "q"
      = some ⟨3, some 9, 1, none, true⟩ ∧
    (∀ k p, k ≠ "q" →
      getEntry ((⟨[(0, [("a", ⟨1, some 1, 0, none, true⟩), ("q", ⟨2, some 2, 0, none, true⟩)])]⟩
          : Heap).getD 0) k = some p →
      getEntry ((reduce "L" "I" "C"
          ⟨[(0, [("a", ⟨1, some 1, 0, none, true⟩), ("q", ⟨2, some 2, 0, none, true⟩)])]⟩
          (some 0) (⟨"L", "q", ⟨3, some 9, 1, none, true⟩⟩ : Action)).1.getD
        (reduce "L" "I" "C"
          ⟨[(0, [("a", ⟨1, some 1, 0, none, true⟩), ("q", ⟨2, some 2, 0, none, true⟩)])]⟩
          (some 0) (⟨"L", "q", ⟨3, some 9, 1, none, true⟩⟩ : Action)).2) k = some p) :=
  load_overwrites_and_shares "L" "I" "C"
    ⟨[(0, [("a", ⟨1, some 1, 0, none, true⟩), ("q", ⟨2, some 2, 0, none, true⟩)])]⟩ 0
    (⟨"L", "q", ⟨3, some 9, 1, none, true⟩⟩ : Action)
    (by decide) (by decide) (by decide) (by decide)

/-- C5: the reducer never mutates the incoming state object: whatever the
event, the object bound to the input reference afterwards holds exactly its
original entries. -/
theorem reduce_no_mutation (lt it ct : String) (h : Heap) (r : Nat) (a : Action)
    (hr : h.get r ≠ none) :
    (reduce lt it ct h (some r) a).1.get r = h.get r := by
  have hfr : r ≠ h.fresh := by
    intro e
    rw [e, get_fresh_eq_none] at hr
    exact hr rfl
  by_cases hc : a.type = ct
  · rw [reduce_clean_eq lt it ct h r a hc]
    show lookupObj ((h.fresh, []) :: h.objs) r = h.get r
    simp only [lookupObj]
    rw [if_neg (Ne.symm hfr)]
    rfl
  · by_cases hl : a.type = lt
    · rw [reduce_load_eq lt it ct h r a hl hc]
      exact writeEntry_get_old h r a.queryId a.payload r hfr
    · by_cases hi : a.type = it
      · cases hge : getEntry (h.getD r) a.queryId with
        | none =>
          rw [reduce_init_write_eq lt it ct h r a hi hc hl (Or.inl hge)]
          exact writeEntry_get_old h r a.queryId a.payload r hfr
        | some p =>
          by_cases hpl : p.loaded = true
          · rw [reduce_init_noop_eq lt it ct h r a p hi hc hl hge hpl]
          · have hplf : p.loaded = false := by
              revert hpl
              cases p.loaded <;> simp
            rw [reduce_init_write_eq lt it ct h r a hi hc hl (Or.inr ⟨p, hge, hplf⟩)]
            exact writeEntry_get_old h r a.queryId a.payload r hfr
      · rw [reduce_other_eq lt it ct h r a hc hl hi]

/-- Witness for C5 at a concrete state and LOAD event. -/
theorem reduce_no_mutation_witness :
    (reduce "L" "I" "C" ⟨[(0, [("q", ⟨1, some 5, 0, none, true⟩)])]⟩ (some 0)
        (⟨"L", "q", ⟨2, some 7, 1, none, true⟩⟩ : Action)).1.get 0
      = (⟨[(0, [("q", ⟨1, some 5, 0, none, true⟩)])]⟩ : Heap).get 0 :=
  reduce_no_mutation "L" "I" "C" ⟨[(0, [("q", ⟨1, some 5, 0, none, true⟩)])]⟩ 0
    (⟨"L", "q", ⟨2, some 7, 1, none, true⟩⟩ : Action) (by decide)

/-- C1 counterexample: a LOAD whose fetch failed (`errors` present, so its
piece has `loaded = false`) is overwritten by a subsequently-processed INIT
for the same query identity: the entry is no longer the LOAD payload. -/
theorem initOverwritesFailedLoad_cex :
    getEntry
      ((reduce "L" "I" "C"
          (reduce "L" "I" "C" ⟨[(0, [])]⟩ (some 0)
            (createSyncLoadActionObject "L" "q" none (some [7]) 3 10)).1
          (some (reduce "L" "I" "C" ⟨[(0, [])]⟩ (some 0)
            (createSyncLoadActionObject "L" "q" none (some [7]) 3 10)).2)
          (createSyncInitAction "I" "q" 4 11)).1.getD
        (reduce "L" "I" "C"
          (reduce "L" "I" "C" ⟨[(0, [])]⟩ (some 0)
            (createSyncLoadActionObject "L" "q" none (some [7]) 3 10)).1
          (some (reduce "L" "I" "C" ⟨[(0, [])]⟩ (some 0)
            (createSyncLoadActionObject "L" "q" none (some [7]) 3 10)).2)
          (createSyncInitAction "I" "q" 4 11)).2)
      "q"
      ≠ some (createSyncLoadActionObject "L" "q" none (some [7]) 3 10).payload := by
  decide

/-- C1 (amended): a LOAD that completed successfully (its payload piece has
`loaded = true`) always wins over a subsequently-processed INIT for the
same query identity: the entry at that identity is still the LOAD payload.
A failed LOAD (`loaded = false`) is not protected: a later INIT overwrites
it, per the reducer's uninitialized check. -/
theorem loadThenInit_keepsLoadedPayload
    (lt it ct : String) (h : Heap) (r : Nat) (a1 a2 : Action)
    (h1t : a1.type = lt) (h1c : a1.type ≠ ct)
    (h2t : a2.type = it) (h2c : a2.type ≠ ct) (h2l : a2.type ≠ lt)
    (hq : a2.queryId = a1.queryId) (hP : a1.payload.loaded = true) :
    getEntry
      ((reduce lt it ct (reduce lt it ct h (some r) a1).1
          (some (reduce lt it ct h (some r) a1).2) a2).1.getD
        (reduce lt it ct (reduce lt it ct h (some r) a1).1
          (some (reduce lt it ct h (some r) a1).2) a2).2)
      a1.queryId = some a1.payload := by
  rw [reduce_load_eq lt it ct h r a1 h1t h1c]
  have hcur : getEntry ((writeEntry h r a1.queryId a1.payload).1.getD
      (writeEntry h r a1.queryId a1.payload).2) a2.queryId = some a1.payload := by
    rw [writeEntry_getD_new, hq]
    exact getEntry_setEntry_self _ _ _
  rw [reduce_init_noop_eq lt it ct (writeEntry h r a1.queryId a1.payload).1
      (writeEntry h r a1.queryId a1.payload).2 a2 a1.payload h2t h2c h2l hcur hP]
  show getEntry ((writeEntry h r a1.queryId a1.payload).1.getD
      (writeEntry h r a1.queryId a1.payload).2) a1.queryId = some a1.payload
  rw [writeEntry_getD_new]
  exact getEntry_setEntry_self _ _ _

/-- Witness for the amended C1 at a concrete successful load. -/
theorem loadThenInit_keepsLoadedPayload_witness :
    getEntry
      ((reduce "L" "I" "C"
          (reduce "L" "I" "C" ⟨[(0, [])]⟩ (some 0)
            (createSyncLoadActionObject "L" "q" (some 5) none 3 10)).1
          (some (reduce "L" "I" "C" ⟨[(0, [])]⟩ (some 0)
            (createSyncLoadActionObject "L" "q" (some 5) none 3 10)).2)
          (createSyncInitAction "I" "q" 4 11)).1.getD
        (reduce "L" "I" "C"
          (reduce "L" "I" "C" ⟨[(0, [])]⟩ (some 0)
            (createSyncLoadActionObject "L" "q" (some 5) none 3 10)).1
          (some (reduce "L" "I" "C" ⟨[(0, [])]⟩ (some 0)
            (createSyncLoadActionObject "L" "q" (some 5) none 3 10)).2)
          (createSyncInitAction "I" "q" 4 11)).2)
      "q" = some (createSyncLoadActionObject "L" "q" (some 5) none 3 10).payload :=
  loadThenInit_keepsLoadedPayload "L" "I" "C" ⟨[(0, [])]⟩ 0
    (createSyncLoadActionObject "L" "q" (some 5) none 3 10)
    (createSyncInitAction "I" "q" 4 11)
    (by decide) (by decide) (by decide) (by decide) (by decide) (by decide) (by decide)

end Soya
